import Mathlib

/-!
Verification of the runix flake-reference core (crates/runix/src/flake_ref/mod.rs).

Strings are embedded as lists of characters (`Str`).  The per-variant grammar
modules (`file`, `git`, `git_service`, `indirect`, `path`, `protocol`) are not
part of the visible source; their recognizers, parsers and renderers are
modelled from the spec (sections 3, 4.1, 4.2, 6 and 8) and are marked
`Modelled from the spec:` below.  The dispatcher, the error enum, the
timestamp and boolean codecs and the identifier pattern are embedded from the
visible source.
-/

/-- Strings are modelled as lists of characters. -/
abbrev Str := List Char

/-- Outcome of running a Rust function: a returned `Ok` value, a returned
`Err` value, or a panic (an `unwrap()` of an `Err`, which aborts instead of
returning). -/
inductive RustOutcome (α : Type) (ε : Type) where
  | ok (a : α)
  | err (e : ε)
  | panic
deriving DecidableEq

/-- A Rust `Result` always returns as a value, never panics. -/
def outcomeOf {α ε : Type} : Except ε α → RustOutcome α ε
  | .ok a => .ok a
  | .error e => .err e

deriving instance DecidableEq for Except

/-- A character allowed after the first character of a flake identifier,
from FLAKE_ID_REGEX = "[a-zA-Z][a-zA-Z0-9_-]*" (mod.rs line 30). -/
def flakeIdChar (c : Char) : Bool :=
  c.isAlpha || c.isDigit || c == '_' || c == '-'

/-- The identifier validator.  Embeds FLAKE_ID_REGEX (mod.rs line 30),
applied as an anchored full match: per spec section 4.3 the pattern must match
from the first character, the first character is a letter and every further
character is a letter, digit, underscore or hyphen. -/
def isFlakeId : Str → Bool
  | [] => false
  | c :: cs => c.isAlpha && cs.all flakeIdChar

/-- The closed set of transport protocol markers (the `protocol` module,
spec section 2). -/
inductive Protocol where
  | file
  | http
  | https
  | ssh
deriving DecidableEq

/-- Scheme text of a transport. -/
def Protocol.scheme : Protocol → Str
  | .file => ['f', 'i', 'l', 'e']
  | .http => ['h', 't', 't', 'p']
  | .https => ['h', 't', 't', 'p', 's']
  | .ssh => ['s', 's', 'h']

/-- The `file+` application qualifier text. -/
def fileKind : Str := ['f', 'i', 'l', 'e']

/-- The `tarball+` application qualifier text. -/
def tarballKind : Str := ['t', 'a', 'r', 'b', 'a', 'l', 'l']

/-- The `git+` qualifier text. -/
def gitKind : Str := ['g', 'i', 't']

/-- Qualified scheme text `kind+scheme:` (for example `file+https:`). -/
def qualPre (kind : Str) (p : Protocol) : Str :=
  kind ++ '+' :: (p.scheme ++ [':'])

/-- Bare scheme text `scheme:` (for example `https:`). -/
def barePre (p : Protocol) : Str :=
  p.scheme ++ [':']

/-- Modelled from the spec: the recognized archive extensions used for
content sniffing (spec sections 4.1 and 8 name `.tar.gz`; the standard Nix
set is used). -/
def archiveExtensions : List Str :=
  [".zip".toList, ".tar".toList, ".tgz".toList, ".tar.gz".toList,
   ".tar.xz".toList, ".tar.bz2".toList, ".tar.zst".toList]

/-- Modelled from the spec: the path component of the part of a URL after
`scheme:` — authority (`//host`) removed, query and fragment removed. -/
def urlPath (rest : Str) : Str :=
  let noQuery := rest.takeWhile (fun c => c != '?' && c != '#')
  match noQuery with
  | '/' :: '/' :: hostAndPath => hostAndPath.dropWhile (· != '/')
  | other => other

/-- Does the path end in a recognized archive extension? -/
def isArchive (p : Str) : Bool :=
  archiveExtensions.any (fun e => e.isSuffixOf p)

/-- Error of the `file` module (`file::ParseFileError`, also covering
tarball refs, which live in the same module). -/
inductive ParseFileError where
  | UnrecognizedUrl (s : Str)
deriving DecidableEq

/-- Error of the `git_service` module (`git_service::ParseGitServiceError`). -/
inductive ParseGitServiceError where
  | UnrecognizedStr (s : Str)
  | MissingRepo (s : Str)
  | InvalidIdentifier (id : Str)
deriving DecidableEq

/-- Error of the `git` module (`git::ParseGitError`). -/
inductive ParseGitError where
  | UnrecognizedUrl (s : Str)
deriving DecidableEq

/-- Error of the `indirect` module (`indirect::ParseIndirectError`). -/
inductive ParseIndirectError where
  | InvalidIdentifier (id : Str)
deriving DecidableEq

/-- Error of the `path` module (`path::ParsePathRefError`). -/
inductive ParsePathRefError where
  | UnrecognizedStr (s : Str)
deriving DecidableEq

/-- The top-level error enum `ParseFlakeRefError` (mod.rs lines 162-177):
each variant family's error wrapped transparently, plus `Invalid` for a
string no variant matches. -/
inductive ParseFlakeRefError where
  | File (e : ParseFileError)
  | GitService (e : ParseGitServiceError)
  | Git (e : ParseGitError)
  | Indirect (e : ParseIndirectError)
  | Path (e : ParsePathRefError)
  | Invalid
deriving DecidableEq

/-- Fields of a file or tarball reference (`FileRef<P>` / `TarballRef<P>`):
whether the explicit `file+`/`tarball+` qualifier was written, and the text
after the scheme separator. -/
structure FileRefData where
  qualified : Bool
  body : Str
deriving DecidableEq

/-- Fields of a git reference (`GitRef<P>`): the text after `git+scheme:`. -/
structure GitRefData where
  body : Str
deriving DecidableEq

/-- Fields of a git-service reference (`GitServiceRef<S>`): owner, repo and
the raw remaining tail (optional `/ref-or-rev` and optional `?attrs`). -/
structure GitServiceData where
  owner : Str
  repo : Str
  rest : Str
deriving DecidableEq

/-- Fields of a path reference (`PathRef`): the text after `path:`. -/
structure PathData where
  body : Str
deriving DecidableEq

/-- Fields of an indirect reference (`IndirectRef`): whether the `flake:`
spelling was used, the registry identifier, and the raw remaining tail. -/
structure IndirectData where
  flakeScheme : Bool
  id : Str
  rest : Str
deriving DecidableEq

/-- Modelled from the spec: `FileRef::<P>::parses` / `TarballRef::<P>::parses`
content is shared; parse accepts the qualified spelling `kind+scheme:` or the
bare spelling `scheme:` and keeps the rest verbatim (spec sections 4.1-4.2). -/
def fileParse (kind : Str) (p : Protocol) (s : Str) : Except ParseFileError FileRefData :=
  if (qualPre kind p).isPrefixOf s then
    .ok ⟨true, s.drop (qualPre kind p).length⟩
  else if (barePre p).isPrefixOf s then
    .ok ⟨false, s.drop (barePre p).length⟩
  else .error (.UnrecognizedUrl s)

/-- Modelled from the spec: recognizer of `FileRef<P>` — the qualified
`file+scheme:` spelling, or the bare `scheme:` spelling when the path does
not sniff as an archive (spec section 4.1 step 2). -/
def fileParses (p : Protocol) (s : Str) : Bool :=
  (qualPre fileKind p).isPrefixOf s ||
    ((barePre p).isPrefixOf s && !(isArchive (urlPath (s.drop (barePre p).length))))

/-- Modelled from the spec: recognizer of `TarballRef<P>` — the qualified
`tarball+scheme:` spelling, or the bare `scheme:` spelling when the path
sniffs as an archive (spec section 4.1 step 2). -/
def tarballParses (p : Protocol) (s : Str) : Bool :=
  (qualPre tarballKind p).isPrefixOf s ||
    ((barePre p).isPrefixOf s && isArchive (urlPath (s.drop (barePre p).length)))

/-- Modelled from the spec: `GitRef::<P>` accepts exactly the qualified
`git+scheme:` spelling (spec section 4.1 step 1). -/
def gitParse (p : Protocol) (s : Str) : Except ParseGitError GitRefData :=
  if (qualPre gitKind p).isPrefixOf s then
    .ok ⟨s.drop (qualPre gitKind p).length⟩
  else .error (.UnrecognizedUrl s)

/-- Recognizer of `GitRef<P>` (the default `FlakeRefSource::parses` scheme
check, mod.rs lines 40-42). -/
def gitParses (p : Protocol) (s : Str) : Bool :=
  (qualPre gitKind p).isPrefixOf s

/-- The two supported git hosting services. -/
inductive Service where
  | github
  | gitlab
deriving DecidableEq

/-- Scheme text of a service. -/
def Service.pre : Service → Str
  | .github => ['g', 'i', 't', 'h', 'u', 'b', ':']
  | .gitlab => ['g', 'i', 't', 'l', 'a', 'b', ':']

/-- Modelled from the spec: `GitServiceRef::<S>` parses
`service:owner/repo[/ref-or-rev][?attrs]`; owner and repo must pass the
identifier grammar, otherwise parsing fails before anything else (spec
sections 3, 4.1 step 3 and 4.2). -/
def gitServiceParse (sv : Service) (s : Str) : Except ParseGitServiceError GitServiceData :=
  if sv.pre.isPrefixOf s then
    let body := s.drop sv.pre.length
    let owner := body.takeWhile (· != '/')
    match body.dropWhile (· != '/') with
    | '/' :: afterOwner =>
      let repo := afterOwner.takeWhile (fun c => c != '/' && c != '?')
      let restTail := afterOwner.dropWhile (fun c => c != '/' && c != '?')
      if isFlakeId owner then
        if isFlakeId repo then .ok ⟨owner, repo, restTail⟩
        else .error (.InvalidIdentifier repo)
      else .error (.InvalidIdentifier owner)
    | _ => .error (.MissingRepo s)
  else .error (.UnrecognizedStr s)

/-- Recognizer of `GitServiceRef<S>`: the scheme check. -/
def gitServiceParses (sv : Service) (s : Str) : Bool :=
  sv.pre.isPrefixOf s

/-- The `path:` scheme text. -/
def pathPre : Str := ['p', 'a', 't', 'h', ':']

/-- Modelled from the spec: `PathRef` parses `path:` followed by the path
expression, kept verbatim (spec section 4.1 step 4). -/
def pathParse (s : Str) : Except ParsePathRefError PathData :=
  if pathPre.isPrefixOf s then .ok ⟨s.drop pathPre.length⟩
  else .error (.UnrecognizedStr s)

/-- Recognizer of `PathRef`: the scheme check. -/
def pathParses (s : Str) : Bool :=
  pathPre.isPrefixOf s

/-- The `flake:` scheme text. -/
def flakePre : Str := ['f', 'l', 'a', 'k', 'e', ':']

/-- Modelled from the spec: `IndirectRef` parses either
`flake:identifier[/ref-or-rev]` or the bare `identifier[/ref-or-rev]` form;
the identifier must pass the identifier grammar (spec section 4.1 step 5). -/
def indirectParse (s : Str) : Except ParseIndirectError IndirectData :=
  if flakePre.isPrefixOf s then
    let body := s.drop flakePre.length
    let id := body.takeWhile (· != '/')
    if isFlakeId id then .ok ⟨true, id, body.dropWhile (· != '/')⟩
    else .error (.InvalidIdentifier id)
  else
    let id := s.takeWhile (· != '/')
    if isFlakeId id then .ok ⟨false, id, s.dropWhile (· != '/')⟩
    else .error (.InvalidIdentifier id)

/-- Recognizer of `IndirectRef`: the `flake:` scheme, or a bare identifier
passing the identifier grammar. -/
def indirectParses (s : Str) : Bool :=
  flakePre.isPrefixOf s || isFlakeId (s.takeWhile (· != '/'))

/-- The reference sum type `FlakeRef` (mod.rs lines 90-109), constructors in
the order of declaration in the source enum. -/
inductive FlakeRef where
  | FileFile (r : FileRefData)
  | FileHTTP (r : FileRefData)
  | FileHTTPS (r : FileRefData)
  | TarballFile (r : FileRefData)
  | TarballHTTP (r : FileRefData)
  | TarballHTTPS (r : FileRefData)
  | Github (r : GitServiceData)
  | Gitlab (r : GitServiceData)
  | Path (r : PathData)
  | GitPath (r : GitRefData)
  | GitSsh (r : GitRefData)
  | GitHttps (r : GitRefData)
  | GitHttp (r : GitRefData)
  | Indirect (r : IndirectData)
deriving DecidableEq

/-- One tag per variant of the sum type, used to talk about the two
priority orders (the dispatcher's guard order and the enum declaration
order). -/
inductive VariantTag where
  | fileFile
  | fileHTTP
  | fileHTTPS
  | tarballFile
  | tarballHTTP
  | tarballHTTPS
  | github
  | gitlab
  | path
  | gitFile
  | gitSSH
  | gitHTTP
  | gitHTTPS
  | indirect
deriving DecidableEq

/-- The dispatcher's priority order: the order of the guard arms of
`FlakeRef::from_str` (mod.rs lines 124-155). -/
def dispatchOrder : List VariantTag :=
  [.fileFile, .fileHTTP, .fileHTTPS,
   .tarballFile, .tarballHTTP, .tarballHTTPS,
   .github, .gitlab, .path,
   .gitFile, .gitSSH, .gitHTTP, .gitHTTPS,
   .indirect]

/-- The order in which serde untagged deserialization tries the variants:
the order of declaration in the `FlakeRef` enum (mod.rs lines 93-106). -/
def declarationOrder : List VariantTag :=
  [.fileFile, .fileHTTP, .fileHTTPS,
   .tarballFile, .tarballHTTP, .tarballHTTPS,
   .github, .gitlab, .path,
   .gitFile, .gitSSH, .gitHTTPS, .gitHTTP,
   .indirect]

/-- A variant's recognizer (`parses`). -/
def recognizes : VariantTag → Str → Bool
  | .fileFile, s => fileParses .file s
  | .fileHTTP, s => fileParses .http s
  | .fileHTTPS, s => fileParses .https s
  | .tarballFile, s => tarballParses .file s
  | .tarballHTTP, s => tarballParses .http s
  | .tarballHTTPS, s => tarballParses .https s
  | .github, s => gitServiceParses .github s
  | .gitlab, s => gitServiceParses .gitlab s
  | .path, s => pathParses s
  | .gitFile, s => gitParses .file s
  | .gitSSH, s => gitParses .ssh s
  | .gitHTTP, s => gitParses .http s
  | .gitHTTPS, s => gitParses .https s
  | .indirect, s => indirectParses s

/-- A variant's deep parser, wrapped into the sum type and the top-level
error (the `?` plus `.into()` of each arm of `FlakeRef::from_str`). -/
def parseVariant : VariantTag → Str → Except ParseFlakeRefError FlakeRef
  | .fileFile, s => (Except.map .FileFile (fileParse fileKind .file s)).mapError .File
  | .fileHTTP, s => (Except.map .FileHTTP (fileParse fileKind .http s)).mapError .File
  | .fileHTTPS, s => (Except.map .FileHTTPS (fileParse fileKind .https s)).mapError .File
  | .tarballFile, s => (Except.map .TarballFile (fileParse tarballKind .file s)).mapError .File
  | .tarballHTTP, s => (Except.map .TarballHTTP (fileParse tarballKind .http s)).mapError .File
  | .tarballHTTPS, s => (Except.map .TarballHTTPS (fileParse tarballKind .https s)).mapError .File
  | .github, s => (Except.map .Github (gitServiceParse .github s)).mapError .GitService
  | .gitlab, s => (Except.map .Gitlab (gitServiceParse .gitlab s)).mapError .GitService
  | .path, s => (Except.map .Path (pathParse s)).mapError .Path
  | .gitFile, s => (Except.map .GitPath (gitParse .file s)).mapError .Git
  | .gitSSH, s => (Except.map .GitSsh (gitParse .ssh s)).mapError .Git
  | .gitHTTP, s => (Except.map .GitHttp (gitParse .http s)).mapError .Git
  | .gitHTTPS, s => (Except.map .GitHttps (gitParse .https s)).mapError .Git
  | .indirect, s => (Except.map .Indirect (indirectParse s)).mapError .Indirect

/-- The dispatcher's match: try each variant's recognizer in order; the
first match's parser runs and its result is final; if no recognizer accepts,
return `Invalid` (mod.rs lines 120-157). -/
def dispatchList : List VariantTag → Str → Except ParseFlakeRefError FlakeRef
  | [], _ => .error .Invalid
  | v :: vs, s => if recognizes v s then parseVariant v s else dispatchList vs s

/-- A character allowed in a URL scheme after the first (RFC 3986). -/
def schemeChar (c : Char) : Bool :=
  c.isAlpha || c.isDigit || c == '+' || c == '-' || c == '.'

/-- Is this a syntactically valid URL scheme? -/
def validScheme : Str → Bool
  | [] => false
  | c :: cs => c.isAlpha && cs.all schemeChar

/-- Simplified model of the external url crate's `Url::parse`: an absolute
URL must carry a `scheme:` separator with a syntactically valid scheme;
the parsed scheme is returned.  A string with no colon (such as
`not-a-ref`) is a relative URL without a base and fails. -/
def urlParse (s : Str) : Option Str :=
  if (s.takeWhile (· != ':')).length < s.length then
    if validScheme (s.takeWhile (· != ':')) then some (s.takeWhile (· != ':'))
    else none
  else none

/-- `FlakeRef::from_str` (mod.rs lines 111-160): the source first runs
`Url::parse(s).unwrap()`, which panics when the input is not a valid URL;
otherwise the guard arms run in order `dispatchOrder`. -/
def FlakeRef.fromStr (s : Str) : RustOutcome FlakeRef ParseFlakeRefError :=
  match urlParse s with
  | none => .panic
  | some _ => outcomeOf (dispatchList dispatchOrder s)

/-- The first variant whose recognizer accepts the string. -/
def firstAccepted (s : Str) : Option VariantTag :=
  dispatchOrder.find? (fun v => recognizes v s)

/-- `ImpureFlakeRef` (mod.rs lines 51-54). -/
inductive ImpureFlakeRef where
  | Pure (r : FlakeRef)
  | Impure (s : Str)
deriving DecidableEq

/-- `ImpureFlakeRef::from_str` (mod.rs lines 56-65): when `Url::parse`
succeeds, defer to `FlakeRef::from_str` and wrap as `Pure` (propagating its
error with `?`); when it fails, return the verbatim input as `Impure`. -/
def ImpureFlakeRef.fromStr (s : Str) : RustOutcome ImpureFlakeRef ParseFlakeRefError :=
  match urlParse s with
  | some _ =>
    match FlakeRef.fromStr s with
    | .ok r => .ok (.Pure r)
    | .err e => .err e
    | .panic => .panic
  | none => .ok (.Impure s)

/-- A decimal digit character for a value below ten. -/
def decChar (d : Nat) : Char := Char.ofNat (48 + d)

/-- Numeric value of a digit character. -/
def digitVal (c : Char) : Nat := c.toNat - 48

/-- Decimal digits of a natural number, most significant first; the fuel
bounds the number of digits and is structural. -/
def natDecimalAux : Nat → Nat → List Char
  | 0, _ => []
  | fuel + 1, n =>
    if n = 0 then []
    else natDecimalAux fuel (n / 10) ++ [decChar (n % 10)]

/-- Decimal digits of a natural number (64 digits of fuel cover every value
involved here). -/
def natDecimal (n : Nat) : Str :=
  if n = 0 then ['0'] else natDecimalAux 64 n

/-- The decimal string of an integer. -/
def intToDecimalStr (t : Int) : Str :=
  if t < 0 then '-' :: natDecimal t.natAbs else natDecimal t.natAbs

/-- Parse a nonempty all-digit string as a natural number. -/
def parseNatDigits (l : Str) : Option Nat :=
  if l.isEmpty then none
  else if l.all Char.isDigit then
    some (l.foldl (fun a c => 10 * a + digitVal c) 0)
  else none

/-- Model of chrono's decimal scan for the `%s` specifier: an optional sign
followed by decimal digits, matching the whole string. -/
def parseDecimalInt : Str → Option Int
  | [] => none
  | c :: rest =>
    if c = '-' then (parseNatDigits rest).map (fun n => -(n : Int))
    else if c = '+' then (parseNatDigits rest).map (fun n => (n : Int))
    else (parseNatDigits (c :: rest)).map (fun n => (n : Int))

/-- Smallest epoch-second value representable by chrono's NaiveDateTime:
midnight of January 1 of year -262144 (proleptic Gregorian), which is
86400 times the signed day count of that date from 1970-01-01. -/
def chronoMinTimestamp : Int := -8334632937600

/-- Largest epoch-second value representable by chrono's NaiveDateTime:
23:59:59 of December 31 of year 262143 (proleptic Gregorian). -/
def chronoMaxTimestamp : Int := 8210298412799

/-- The `Timestamp` newtype (mod.rs lines 179-183); the wrapped UTC instant
is modelled by its epoch seconds (`timestamp_opt(t, 0)` and `%s` both build
instants with zero nanoseconds). -/
structure Timestamp where
  seconds : Int
deriving DecidableEq

/-- The untagged helper enum `TimestampDeserialize` (mod.rs lines 185-190). -/
inductive TimestampDeserialize where
  | TsI64 (t : Int)
  | TsString (s : Str)
deriving DecidableEq

/-- The error enum `ParseTimeError` (mod.rs lines 211-217); the chrono parse
error carried by `FromString` is not further inspected. -/
inductive ParseTimeError where
  | FromInt (t : Int)
  | FromString
deriving DecidableEq

/-- `TryFrom<TimestampDeserialize> for Timestamp` (mod.rs lines 192-209).
An integer is accepted when `Utc.timestamp_opt(t, 0)` is in chrono's range,
otherwise `FromInt`; a string is parsed with the `%s` format, where both a
scan failure and an out-of-range value surface as a chrono parse error,
hence `FromString`. -/
def timestampTryFrom : TimestampDeserialize → Except ParseTimeError Timestamp
  | .TsI64 t =>
    if chronoMinTimestamp ≤ t ∧ t ≤ chronoMaxTimestamp then .ok ⟨t⟩
    else .error (.FromInt t)
  | .TsString s =>
    match parseDecimalInt s with
    | some t =>
      if chronoMinTimestamp ≤ t ∧ t ≤ chronoMaxTimestamp then .ok ⟨t⟩
      else .error .FromString
    | none => .error .FromString

/-- A JSON-like attribute value, as far as the codecs here care. -/
inductive JsonVal where
  | int (n : Int)
  | str (s : Str)
  | boolean (b : Bool)
deriving DecidableEq

/-- Untagged deserialization into `TimestampDeserialize`: a native integer
becomes `TsI64`, a string becomes `TsString`, anything else is a serde
shape error (`none`). -/
def timestampDeserializeJson : JsonVal → Option TimestampDeserialize
  | .int n => some (.TsI64 n)
  | .str s => some (.TsString s)
  | .boolean _ => none

/-- Full decoding pipeline of a `Timestamp` field from a JSON-like value
(`#[serde(try_from = "TimestampDeserialize")]`). -/
def timestampJsonDecode (v : JsonVal) : Option (Except ParseTimeError Timestamp) :=
  (timestampDeserializeJson v).map timestampTryFrom

/-- Serialization of a `Timestamp`
(`chrono::serde::ts_seconds::serialize`, mod.rs line 182): always the
integer epoch seconds of the stored instant. -/
def serializeTimestamp (t : Timestamp) : JsonVal := .int t.seconds

/-- Rust's `core::str::ParseBoolError`. -/
inductive ParseBoolError where
  | invalidBoolLiteral
deriving DecidableEq

/-- Rust's `bool::from_str`: exactly the strings `true` and `false`. -/
def strParseBool (s : Str) : Except ParseBoolError Bool :=
  if s = "true".toList then .ok true
  else if s = "false".toList then .ok false
  else .error .invalidBoolLiteral

/-- The untagged helper enum `BoolReprs` (mod.rs lines 219-224). -/
inductive BoolReprs where
  | String (s : Str)
  | Bool (b : Bool)
deriving DecidableEq

/-- `TryFrom<BoolReprs> for bool` (mod.rs lines 226-235): a string goes
through `bool::from_str`, a native boolean is returned unchanged. -/
def boolReprsTryInto : BoolReprs → Except ParseBoolError Bool
  | .String s => strParseBool s
  | .Bool b => .ok b

/-- Serialization of a boolean attribute: the native boolean spelling. -/
def serializeBool (b : Bool) : JsonVal := .boolean b

/-- The dispatcher runs the parser of the first variant whose recognizer
accepts, and nothing else. -/
theorem dispatchList_find (l : List VariantTag) (s : Str) :
    ∀ v, l.find? (fun w => recognizes w s) = some v →
      dispatchList l s = parseVariant v s := by
  induction l with
  | nil => intro v h; simp [List.find?] at h
  | cons w l ih =>
    intro v h
    by_cases hw : recognizes w s = true
    · simp only [List.find?, hw, Option.some.injEq] at h
      subst h
      simp [dispatchList, hw]
    · have hw2 : recognizes w s = false := by simpa using hw
      simp only [List.find?, hw2] at h
      rw [dispatchList]
      simp only [hw2, Bool.false_eq_true, if_false]
      exact ih v h

/-- Printing zero with any fuel gives no digits. -/
theorem natDecimalAux_zero (fuel : Nat) : natDecimalAux fuel 0 = [] := by
  cases fuel <;> simp [natDecimalAux]

/-- A digit value below ten prints as a decimal digit character. -/
theorem decChar_isDigit {d : Nat} (h : d < 10) : (decChar d).isDigit = true := by
  interval_cases d <;> decide

/-- Reading back the character of a digit value below ten recovers it. -/
theorem digitVal_decChar {d : Nat} (h : d < 10) : digitVal (decChar d) = d := by
  interval_cases d <;> decide

/-- A digit character is not a sign character. -/
theorem isDigit_ne_sign {c : Char} (h : c.isDigit = true) : c ≠ '-' ∧ c ≠ '+' := by
  constructor <;> intro e <;> subst e <;> exact absurd h (by decide)

/-- Every character the decimal printer emits is a digit. -/
theorem natDecimalAux_digits (fuel : Nat) : ∀ n, (natDecimalAux fuel n).all Char.isDigit = true := by
  induction fuel with
  | zero => intro n; simp [natDecimalAux]
  | succ fuel ih =>
    intro n
    rw [natDecimalAux]
    split
    · simp
    · rw [List.all_append]
      rw [ih (n / 10)]
      simp [decChar_isDigit (Nat.mod_lt _ (by norm_num))]

/-- Folding the digit characters of `n` back recovers `n` when the fuel
covers all the digits. -/
theorem readBack_natDecimalAux : ∀ (fuel n : Nat), n < 10 ^ fuel →
    (natDecimalAux fuel n).foldl (fun b c => 10 * b + digitVal c) 0 = n := by
  intro fuel
  induction fuel with
  | zero =>
    intro n h
    interval_cases n
    simp [natDecimalAux]
  | succ fuel ih =>
    intro n h
    rw [natDecimalAux]
    split
    · simp_all
    · rw [List.foldl_append, List.foldl_cons, List.foldl_nil]
      rw [ih (n / 10) (Nat.div_lt_of_lt_mul (by rw [pow_succ] at h; omega))]
      rw [digitVal_decChar (Nat.mod_lt _ (by norm_num))]
      omega

/-- The decimal printer never emits the empty string for a nonzero value. -/
theorem natDecimalAux_ne_nil {n : Nat} (h : n ≠ 0) : natDecimalAux 64 n ≠ [] := by
  rw [natDecimalAux]
  split
  · omega
  · simp

/-- Parsing the printed decimal digits of a natural number below `10^64`
recovers the number. -/
theorem parseNat_natDecimal {n : Nat} (h : n < 10 ^ 64) :
    parseNatDigits (natDecimal n) = some n := by
  rw [natDecimal]
  split
  case isTrue hz => subst hz; decide
  case isFalse hz =>
    have hne := natDecimalAux_ne_nil hz
    rw [parseNatDigits]
    rw [if_neg (by simpa [List.isEmpty_iff] using hne)]
    rw [if_pos (natDecimalAux_digits 64 n)]
    rw [readBack_natDecimalAux 64 n h]

/-- The decimal printer starts with a digit character. -/
theorem natDecimal_head (n : Nat) : ∃ c cs, natDecimal n = c :: cs ∧ c.isDigit = true := by
  have hall : (natDecimal n).all Char.isDigit = true := by
    rw [natDecimal]
    split
    · decide
    · exact natDecimalAux_digits 64 n
  have hne : natDecimal n ≠ [] := by
    rw [natDecimal]
    split
    · simp
    · exact natDecimalAux_ne_nil (by assumption)
  cases hl : natDecimal n with
  | nil => exact absurd hl hne
  | cons c cs =>
    rw [hl] at hall
    rw [List.all_cons, Bool.and_eq_true] at hall
    exact ⟨c, cs, rfl, hall.1⟩

/-- Parsing the decimal string of an integer of at most 64 digits recovers
the integer. -/
theorem parseDecimal_intToDecimal {t : Int} (h : t.natAbs < 10 ^ 64) :
    parseDecimalInt (intToDecimalStr t) = some t := by
  rw [intToDecimalStr]
  split
  case isTrue hneg =>
    rw [parseDecimalInt]
    simp only [if_pos rfl]
    rw [parseNat_natDecimal h]
    simp
    rw [abs_of_neg hneg]
    ring
  case isFalse hpos =>
    obtain ⟨c, cs, hl, hc⟩ := natDecimal_head t.natAbs
    have h1 := isDigit_ne_sign hc
    rw [hl, parseDecimalInt, if_neg h1.1, if_neg h1.2, ← hl]
    rw [parseNat_natDecimal h]
    simp
    omega

/-- C1: the claim says `FlakeRef::from_str` returns `ParseFlakeRefError::Invalid`
as a value on every input matching no variant grammar and never panics; but
the source (mod.rs line 115) first runs `Url::parse(s).unwrap()`, which
panics on every input that is not a syntactically valid URL, such as
`not a ref!`.  Only a valid URL matching no variant (such as a `mailto:`
URL) reaches the `Invalid` value. -/
theorem fromStr_panic_on_malformed :
    FlakeRef.fromStr ("not a ref!".toList) = .panic ∧
    FlakeRef.fromStr ("mailto:someone@example.com".toList) = .err .Invalid :=
  ⟨by decide, by decide⟩

/-- C4: once some variant's recognizer accepts (and the input is a valid
URL, so the dispatcher is reached at all), `FlakeRef::from_str` is exactly
the outcome of that variant's deep parser — a deep-parse failure surfaces
as that variant's error wrapped in `ParseFlakeRefError`, and no later
variant is ever tried. -/
theorem fromStr_first_match_is_final (s u : Str) (v : VariantTag)
    (hu : urlParse s = some u) (hv : firstAccepted s = some v) :
    FlakeRef.fromStr s = outcomeOf (parseVariant v s) := by
  simp only [FlakeRef.fromStr, hu]
  rw [dispatchList_find dispatchOrder s v hv]

/-- Witness for C4: the github recognizer accepts `github:1flox/runix`, its
deep parse fails on the invalid owner identifier, and the dispatcher
surfaces exactly that wrapped git-service error. -/
theorem fromStr_first_match_is_final_witness :
    urlParse ("github:1flox/runix".toList) = some ("github".toList) ∧
    firstAccepted ("github:1flox/runix".toList) = some VariantTag.github ∧
    FlakeRef.fromStr ("github:1flox/runix".toList) =
      outcomeOf (parseVariant VariantTag.github ("github:1flox/runix".toList)) ∧
    parseVariant VariantTag.github ("github:1flox/runix".toList) =
      .error (.GitService (.InvalidIdentifier ("1flox".toList))) :=
  ⟨by decide, by decide,
   fromStr_first_match_is_final ("github:1flox/runix".toList) ("github".toList)
     VariantTag.github (by decide) (by decide), by decide⟩

/-- C5 counterexample: the order in which untagged deserialization tries
the variants (the enum declaration order) is not the dispatcher's priority
order — at position 11 deserialization tries the git+https variant while
the string dispatcher tries git+http. -/
theorem untagged_order_ne_dispatch_order :
    declarationOrder.get? 11 = some VariantTag.gitHTTPS ∧
    dispatchOrder.get? 11 = some VariantTag.gitHTTP ∧
    declarationOrder ≠ dispatchOrder := by decide

/-- C5 amended: untagged deserialization tries the variants in enum
declaration order, which agrees with the dispatcher's priority order on the
file, tarball, git-service and path families and on the indirect fallback,
but inside the git family the two transports https and http appear in
swapped order (deserialization tries git+https before git+http, the string
dispatcher git+http before git+https); the two orders contain the same
variants. -/
theorem untagged_order_swapped_git :
    declarationOrder.take 11 = dispatchOrder.take 11 ∧
    declarationOrder.drop 13 = dispatchOrder.drop 13 ∧
    declarationOrder.get? 11 = dispatchOrder.get? 12 ∧
    declarationOrder.get? 12 = dispatchOrder.get? 11 ∧
    declarationOrder.Perm dispatchOrder := by decide

/-- C6: whenever decoding the native integer `t` succeeds, decoding the
decimal string of `t` succeeds with the identical UTC instant; an
out-of-range integer fails with `FromInt t`, and an unparseable string
fails with `FromString`. -/
theorem timestamp_int_string_equiv (t : Int) :
    (∀ ts : Timestamp, timestampTryFrom (.TsI64 t) = .ok ts →
      timestampTryFrom (.TsString (intToDecimalStr t)) = .ok ts) ∧
    (¬ (chronoMinTimestamp ≤ t ∧ t ≤ chronoMaxTimestamp) →
      timestampTryFrom (.TsI64 t) = .error (.FromInt t)) ∧
    (∀ s : Str, parseDecimalInt s = none →
      timestampTryFrom (.TsString s) = .error .FromString) := by
  refine ⟨?_, ?_, ?_⟩
  · intro ts h
    rw [timestampTryFrom] at h
    split at h
    case isTrue hr =>
      cases h
      have habs : t.natAbs < 10 ^ 64 := by
        have e1 : chronoMinTimestamp = -8334632937600 := rfl
        have e2 : chronoMaxTimestamp = 8210298412799 := rfl
        have e3 : (10 : Nat) ^ 64 =
            10000000000000000000000000000000000000000000000000000000000000000 := by
          norm_num
        rw [e1, e2] at hr
        omega
      simp [timestampTryFrom, parseDecimal_intToDecimal habs, hr]
    case isFalse => cases h
  · intro hn
    rw [timestampTryFrom, if_neg hn]
  · intro s hs
    rw [timestampTryFrom, hs]

/-- Witness for C6: the integer 1700000000 and the string 1700000000 decode
to the identical instant. -/
theorem timestamp_int_string_equiv_witness :
    timestampTryFrom (.TsI64 1700000000) = .ok ⟨1700000000⟩ ∧
    timestampTryFrom (.TsString ("1700000000".toList)) = .ok ⟨1700000000⟩ := by
  refine ⟨by decide, ?_⟩
  have h := (timestamp_int_string_equiv 1700000000).1 ⟨1700000000⟩ (by decide)
  have e : intToDecimalStr 1700000000 = ("1700000000".toList) := by decide
  rw [e] at h
  exact h

/-- C7: the boolean codec returns a native boolean unchanged, maps exactly
the strings true and false to the booleans true and false, fails on every
other string with the codec error, decodes the native and the string
spelling of true to the same value, and always renders the native
spelling. -/
theorem bool_codec (s : Str) (b : Bool) :
    boolReprsTryInto (.Bool b) = .ok b ∧
    boolReprsTryInto (.String ("true".toList)) = .ok true ∧
    boolReprsTryInto (.String ("false".toList)) = .ok false ∧
    (s ≠ "true".toList → s ≠ "false".toList →
      boolReprsTryInto (.String s) = .error .invalidBoolLiteral) ∧
    boolReprsTryInto (.String ("true".toList)) = boolReprsTryInto (.Bool true) ∧
    serializeBool b = .boolean b := by
  refine ⟨rfl, by decide, by decide, ?_, by decide, rfl⟩
  intro h1 h2
  simp only [boolReprsTryInto, strParseBool, if_neg h1, if_neg h2]

/-- Witness for C7: the string yes is neither boolean spelling and decodes
to the codec error. -/
theorem bool_codec_witness :
    ("yes".toList ≠ "true".toList) ∧ ("yes".toList ≠ "false".toList) ∧
    boolReprsTryInto (.String ("yes".toList)) = .error .invalidBoolLiteral :=
  ⟨by decide, by decide,
   (bool_codec ("yes".toList) true).2.2.2.1 (by decide) (by decide)⟩

/-- C8: the identifier validator accepts a string only through the anchored
grammar — empty strings are rejected, a nonempty string is accepted exactly
when its first character is a letter and every further character is a
letter, digit, underscore or hyphen; hence the owner 1flox (leading digit)
fails with an identifier error while the owner fl0x- parses. -/
theorem identifier_validator (c : Char) (cs : Str) :
    isFlakeId [] = false ∧
    isFlakeId (c :: cs) = (c.isAlpha && cs.all flakeIdChar) ∧
    FlakeRef.fromStr ("github:1flox/runix".toList) =
      .err (.GitService (.InvalidIdentifier ("1flox".toList))) ∧
    FlakeRef.fromStr ("github:fl0x-/runix".toList) =
      .ok (.Github ⟨"fl0x-".toList, "runix".toList, []⟩) :=
  ⟨rfl, rfl, by decide, by decide⟩

/-- C9: a decoded timestamp always serializes to the normalized integer
epoch-seconds form — never to a string, whatever textual style the input
had — and decoding the serialized form gives back the identical value. -/
theorem timestamp_serialize_normalized (v : JsonVal) (ts : Timestamp)
    (h : timestampJsonDecode v = some (.ok ts)) :
    serializeTimestamp ts = .int ts.seconds ∧
    (∀ s2 : Str, serializeTimestamp ts ≠ .str s2) ∧
    (∀ b : Bool, serializeTimestamp ts ≠ .boolean b) ∧
    timestampJsonDecode (serializeTimestamp ts) = some (.ok ts) := by
  refine ⟨rfl, fun s2 => by simp [serializeTimestamp], fun b => by simp [serializeTimestamp], ?_⟩
  cases v with
  | int n =>
    simp only [timestampJsonDecode, timestampDeserializeJson, Option.map_some',
      Option.some.injEq] at h
    simp only [timestampTryFrom] at h
    split at h
    case isTrue hr =>
      cases h
      simp [timestampJsonDecode, timestampDeserializeJson, serializeTimestamp,
        timestampTryFrom, hr]
    case isFalse => cases h
  | str s =>
    simp only [timestampJsonDecode, timestampDeserializeJson, Option.map_some',
      Option.some.injEq] at h
    cases hp : parseDecimalInt s with
    | none =>
      simp only [timestampTryFrom, hp] at h
      exact Except.noConfusion h
    | some t2 =>
      simp only [timestampTryFrom, hp] at h
      split at h
      case isTrue hr =>
        cases h
        simp [timestampJsonDecode, timestampDeserializeJson, serializeTimestamp,
          timestampTryFrom, hr]
      case isFalse => cases h
  | boolean b => simp [timestampJsonDecode, timestampDeserializeJson] at h

/-- Witness for C9: the string form of 1700000000 decodes, serializes to
the native integer form, and the serialized form decodes back to the same
value. -/
theorem timestamp_serialize_normalized_witness :
    timestampJsonDecode (.str ("1700000000".toList)) = some (.ok ⟨1700000000⟩) ∧
    serializeTimestamp ⟨1700000000⟩ = .int 1700000000 ∧
    timestampJsonDecode (serializeTimestamp ⟨1700000000⟩) = some (.ok ⟨1700000000⟩) :=
  ⟨by decide, by decide,
   (timestamp_serialize_normalized (.str ("1700000000".toList)) ⟨1700000000⟩
     (by decide)).2.2.2⟩

/-- C10: when the input is not a syntactically valid URL,
`ImpureFlakeRef::from_str` returns the verbatim input as `Impure` and never
an error; an error can only arise from a valid URL whose `FlakeRef` parse
fails, and it is that parse's error. -/
theorem impureFromStr_total (s : Str) :
    (urlParse s = none → ImpureFlakeRef.fromStr s = .ok (.Impure s)) ∧
    (∀ e : ParseFlakeRefError, ImpureFlakeRef.fromStr s = .err e →
      (∃ u, urlParse s = some u) ∧ FlakeRef.fromStr s = .err e) := by
  constructor
  · intro h
    simp [ImpureFlakeRef.fromStr, h]
  · intro e h
    cases hu : urlParse s with
    | none =>
      simp only [ImpureFlakeRef.fromStr, hu] at h
      exact RustOutcome.noConfusion h
    | some u =>
      refine ⟨⟨u, rfl⟩, ?_⟩
      simp only [ImpureFlakeRef.fromStr, hu] at h
      cases hf : FlakeRef.fromStr s with
      | ok r =>
        rw [hf] at h
        exact RustOutcome.noConfusion h
      | err e2 =>
        rw [hf] at h
        cases h
        rfl
      | panic =>
        rw [hf] at h
        exact RustOutcome.noConfusion h

/-- Witness for C10: a string that is not a URL comes back verbatim as an
`Impure` value. -/
theorem impureFromStr_total_witness :
    urlParse ("not a flake ref".toList) = none ∧
    ImpureFlakeRef.fromStr ("not a flake ref".toList) =
      .ok (.Impure ("not a flake ref".toList)) :=
  ⟨by decide, (impureFromStr_total ("not a flake ref".toList)).1 (by decide)⟩
